import Mathlib

/-! Verification development for the artist classes of the compas repository.

Shallow embedding of
src/compas_blender/artists/networkartist.py,
src/compas_blender/utilities/objects.py,
src/compas_ghpython/artists/meshartist.py and
src/compas_rhino/artists/frameartist.py,
with theorems about their drawing, clearing, settings-merge and error
behaviour.  Host scene objects are modelled as natural-number handles
allocated by a counter; scene state records which handles are live and
which drawing primitives were created for each handle.  Python dicts with
string keys are modelled as association lists looked up front-to-back, so
that an update is prepending (entries of the update shadow older entries).
-/

namespace CompasSpec

/-- Coordinates of a point, as a rational triple (floats are modelled as
rationals; no claim here depends on rounding). -/
abbrev Q3 := ℚ × ℚ × ℚ

/-- An rgb color triple with components in 0..255. -/
abbrev Color := ℕ × ℕ × ℕ

/-- A Python value stored in an artist settings dictionary: a boolean flag
or an rgb color tuple. -/
inductive SVal where
  | bool (b : Bool)
  | rgb (c : Color)
deriving DecidableEq

/-- Python truthiness of a settings value: a boolean is itself, a non-empty
tuple (an rgb triple) is always truthy. -/
def SVal.truthy : SVal → Bool
  | .bool b => b
  | .rgb _ => true

/-- A Python dict with string keys, as an association list whose lookup
takes the first match. -/
abbrev SettingsDict := List (String × SVal)

/-- Python dict.update modelled by lookup priority: the entries of the
update argument are placed in front, so they shadow the receiver's
entries.  Observationally (for lookups) this is exactly dict.update. -/
def dictUpdate (d s : SettingsDict) : SettingsDict := s ++ d

/-- Python exceptions raised by the embedded code. -/
inductive PyErr where
  | keyError
  | notImplementedError
  | attributeError (attr : String)
deriving DecidableEq

/-- Python idiom xs or ys for a list-or-None argument: None and the empty
list are falsy, so both select ys; a non-empty list selects itself. -/
def pyOr (sel : Option (List α)) (all : List α) : List α :=
  match sel with
  | none => all
  | some l => if l.isEmpty then all else l

/-- A color argument to a draw method: None, a single rgb tuple applying
to every key, or a dict of per-key rgb tuples. -/
inductive ColorSpec (κ : Type) where
  | pynone
  | single (c : Color)
  | perkey (d : List (κ × Color))

/-- Modelled from the spec: compas.utilities.color_to_colordict is code of
this repository that is not under src/.  Per the spec it is the per-key
color resolution helper with default-with-overrides lookup: None assigns
every key the given default, a single color applies to every key, and a
per-key dict overrides the default exactly on the keys it holds.  The
result is modelled as a function; the Python original materialises it as a
dict over the given keys and is only ever indexed at those keys. -/
def color_to_colordict [BEq κ] (color : ColorSpec κ) (keys : List κ)
    (default : SVal) : κ → SVal :=
  fun k =>
    match color with
    | .pynone => default
    | .single c => .rgb c
    | .perkey d =>
      match d.lookup k with
      | some c => .rgb c
      | none => default

namespace compas_blender

/-- A point descriptor forwarded to the host draw_points function
(fields pos, name, color, radius of the Python dict literal). -/
structure PointDesc where
  pos : Q3
  name : String
  color : SVal
  radius : ℚ
deriving DecidableEq

/-- A line descriptor forwarded to the host draw_lines function
(fields start, end, color, name, width of the Python dict literal). -/
structure LineDesc where
  start : Q3
  end_ : Q3
  color : SVal
  name : String
  width : ℚ
deriving DecidableEq

/-- The Blender scene, abstracted: a fresh-handle counter, the list of
handles of the objects currently present in the scene, and a log of the
point and line primitives created for each handle.  Data blocks attached
to mesh or curve objects are host internals and are not modelled. -/
structure Scene where
  next : ℕ
  live : List ℕ
  points : List (ℕ × PointDesc)
  lines : List (ℕ × LineDesc)
deriving DecidableEq

/-- Modelled from the spec: compas_blender.draw_points is code of this
repository that is not under src/.  Per the spec it is a host-drawing
function: it creates one scene object per descriptor, in order, inside the
given collection, and returns the created objects. -/
def draw_points (st : Scene) (points : List PointDesc) (collection : String) :
    Scene × List ℕ :=
  let handles := (List.range points.length).map (fun i => st.next + i)
  ({ next := st.next + points.length
     live := st.live ++ handles
     points := st.points ++ handles.zip points
     lines := st.lines }, handles)

/-- Modelled from the spec: compas_blender.draw_lines is code of this
repository that is not under src/.  Per the spec it is a host-drawing
function: it creates one scene object per descriptor, in order, inside the
given collection, and returns the created objects. -/
def draw_lines (st : Scene) (lines : List LineDesc) (collection : String) :
    Scene × List ℕ :=
  let handles := (List.range lines.length).map (fun i => st.next + i)
  ({ next := st.next + lines.length
     live := st.live ++ handles
     points := st.points
     lines := st.lines ++ handles.zip lines }, handles)

/-- compas_blender.utilities.objects.delete_object: removes the scene
object from the scene (bpy.data.objects.remove); the branch on MESH and
CURVE types only removes attached data blocks, which are host internals
and are not modelled. -/
def delete_object (st : Scene) (obj : ℕ) : Scene :=
  { st with live := st.live.erase obj }

/-- compas_blender.utilities.objects.delete_objects: delete multiple scene
objects. -/
def delete_objects (st : Scene) (objects : List ℕ) : Scene :=
  objects.foldl delete_object st

/-- A COMPAS network as read by the artist: a name, node and edge lists,
and a coordinate accessor. -/
structure Network where
  name : String
  nodes : List ℕ
  edges : List (ℕ × ℕ)
  node_coordinates : ℕ → Q3

/-- The NetworkArtist state: the network, the settings dict, and the three
tracking dicts mapping created scene objects to the node, edge or path they
came from (association lists keyed by object handle). -/
structure NetworkArtist where
  network : Network
  settings : SettingsDict
  object_node : List (ℕ × ℕ)
  object_edge : List (ℕ × (ℕ × ℕ))
  object_path : List (ℕ × ℕ)

/-- The default settings dict built in NetworkArtist.__init__. -/
def NetworkArtist.default_settings : SettingsDict :=
  [("color.nodes", .rgb (255, 255, 255)),
   ("color.edges", .rgb (0, 0, 0)),
   ("show.nodes", .bool true),
   ("show.edges", .bool true),
   ("show.nodelabels", .bool false),
   ("show.edgelabels", .bool false)]

/-- NetworkArtist.__init__(network, settings=None): tracking dicts start
empty; the default settings are updated with the given settings when these
are truthy (None and the empty dict are falsy and leave the defaults). -/
def NetworkArtist.init (network : Network) (settings : Option SettingsDict) :
    NetworkArtist :=
  { network := network
    settings :=
      match settings with
      | none => NetworkArtist.default_settings
      | some s =>
        if s.isEmpty then NetworkArtist.default_settings
        else dictUpdate NetworkArtist.default_settings s
    object_node := []
    object_edge := []
    object_path := [] }

/-- The handles tracked by the artist: the keys of object_node, object_edge
and object_path, in the order NetworkArtist.clear collects them. -/
def NetworkArtist.tracked (a : NetworkArtist) : List ℕ :=
  a.object_node.map Prod.fst ++ a.object_edge.map Prod.fst ++
    a.object_path.map Prod.fst

/-- NetworkArtist.clear: delete the tracked objects from the scene and
reset the three tracking dicts to empty. -/
def NetworkArtist.clear (st : Scene) (a : NetworkArtist) :
    Scene × NetworkArtist :=
  (delete_objects st a.tracked,
   { a with object_node := [], object_edge := [], object_path := [] })

/-- NetworkArtist.draw_nodes(nodes=None, color=None): select the given
nodes (all nodes when the argument is None or empty), resolve per-node
colors with default settings of key color.nodes, build one point descriptor
per node, forward them to the host draw_points, and store the returned
objects zipped with their source nodes as object_node.  Indexing a missing
settings key raises a KeyError, before any scene mutation. -/
def NetworkArtist.draw_nodes (st : Scene) (a : NetworkArtist)
    (nodes : Option (List ℕ)) (color : ColorSpec ℕ) :
    (Scene × NetworkArtist) × Except PyErr (List ℕ) :=
  let nodes := pyOr nodes a.network.nodes
  match a.settings.lookup ("color.nodes") with
  | none => ((st, a), .error .keyError)
  | some dflt =>
    let node_color := color_to_colordict color nodes dflt
    let points := nodes.foldl (fun acc node => acc ++
      [({ pos := a.network.node_coordinates node
          name := a.network.name ++ ".node." ++ toString node
          color := node_color node
          radius := (5 : ℚ) / 100 } : PointDesc)]) []
    let r := draw_points st points ("Network::Nodes")
    ((r.1, { a with object_node := r.2.zip nodes }), .ok r.2)

/-- NetworkArtist.draw_edges(edges=None, color=None): select the given
edges (all edges when the argument is None or empty), resolve per-edge
colors with default settings of key color.edges, build one line descriptor
per edge, forward them to the host draw_lines, and store the returned
objects zipped with their source edges as object_edge. -/
def NetworkArtist.draw_edges (st : Scene) (a : NetworkArtist)
    (edges : Option (List (ℕ × ℕ))) (color : ColorSpec (ℕ × ℕ)) :
    (Scene × NetworkArtist) × Except PyErr (List ℕ) :=
  let edges := pyOr edges a.network.edges
  match a.settings.lookup ("color.edges") with
  | none => ((st, a), .error .keyError)
  | some dflt =>
    let edge_color := color_to_colordict color edges dflt
    let lines := edges.foldl (fun acc edge => acc ++
      [({ start := a.network.node_coordinates edge.1
          end_ := a.network.node_coordinates edge.2
          color := edge_color edge
          name := a.network.name ++ ".edge." ++ toString edge.1 ++ "-" ++
            toString edge.2
          width := (2 : ℚ) / 100 } : LineDesc)]) []
    let r := draw_lines st lines ("Network::Edges")
    ((r.1, { a with object_edge := r.2.zip edges }), .ok r.2)

/-- The settings-merge step of NetworkArtist.draw:
self.settings.update(settings). -/
def NetworkArtist.updateSettings (a : NetworkArtist) (s : SettingsDict) :
    NetworkArtist :=
  { a with settings := dictUpdate a.settings s }

/-- NetworkArtist.draw(settings=None): clear, replace a falsy settings
argument by the empty dict, merge it into the artist settings, then draw
nodes when the merged show.nodes is truthy and edges when the merged
show.edges is truthy, threading the scene; a KeyError from an indexing
aborts with the state reached so far.  The final return value self.objects
comes from BaseArtist, which is not under src/; modelled from the spec, it
is the created host objects tracked by the artist. -/
def NetworkArtist.draw (st : Scene) (a : NetworkArtist)
    (settings : Option SettingsDict) :
    (Scene × NetworkArtist) × Except PyErr (List ℕ) :=
  let p := NetworkArtist.clear st a
  let s := match settings with
    | none => ([] : SettingsDict)
    | some s => if s.isEmpty then [] else s
  let a := NetworkArtist.updateSettings p.2 s
  let st := p.1
  match a.settings.lookup ("show.nodes") with
  | none => ((st, a), .error .keyError)
  | some vn =>
    let pn := if vn.truthy then NetworkArtist.draw_nodes st a none .pynone
              else ((st, a), .ok [])
    match pn with
    | (q, .error e) => (q, .error e)
    | (q, .ok _) =>
      match q.2.settings.lookup ("show.edges") with
      | none => (q, .error .keyError)
      | some ve =>
        let pe := if ve.truthy then NetworkArtist.draw_edges q.1 q.2 none .pynone
                  else (q, .ok [])
        match pe with
        | (r, .error e) => (r, .error e)
        | (r, .ok _) =>
          (r, .ok (NetworkArtist.tracked r.2))

/-- One public operation on a NetworkArtist. -/
inductive NetOp where
  | draw (settings : Option SettingsDict)
  | draw_nodes (nodes : Option (List ℕ)) (color : ColorSpec ℕ)
  | draw_edges (edges : Option (List (ℕ × ℕ))) (color : ColorSpec (ℕ × ℕ))
  | clear

/-- Apply one public operation to the scene and the artist (an exception
propagates to the caller; the state reached at the raise is kept). -/
def NetworkArtist.step (p : Scene × NetworkArtist) (op : NetOp) :
    Scene × NetworkArtist :=
  match op with
  | .draw s => (NetworkArtist.draw p.1 p.2 s).1
  | .draw_nodes n c => (NetworkArtist.draw_nodes p.1 p.2 n c).1
  | .draw_edges e c => (NetworkArtist.draw_edges p.1 p.2 e c).1
  | .clear => NetworkArtist.clear p.1 p.2

/-- Apply a sequence of public operations. -/
def NetworkArtist.run (p : Scene × NetworkArtist) (ops : List NetOp) :
    Scene × NetworkArtist :=
  ops.foldl NetworkArtist.step p

/-- The tracking invariant: every key of the three tracking dicts is a
scene object currently present in the host scene. -/
def SceneInv (p : Scene × NetworkArtist) : Prop :=
  ∀ h ∈ p.2.tracked, h ∈ p.1.live

/-- The name-keyed view of bpy.data.objects: each scene object is an entry
pairing its name with its handle; Blender keeps object names unique, but
the model does not assume it (lookups take the first match). -/
structure BpyObjects where
  objects : List (String × ℕ)
deriving DecidableEq

/-- compas_blender.utilities.objects.get_object_by_name: bpy.data.objects
indexed by name, a host lookup raising a KeyError when no object with that
name exists. -/
def get_object_by_name (d : BpyObjects) (name : String) : Except PyErr ℕ :=
  match d.objects.lookup name with
  | some obj => .ok obj
  | none => .error .keyError

/-- Removal of a fetched object from the name-keyed view (the
bpy.data.objects.remove performed by delete_object; the data-block branch
is a host internal and is not modelled). -/
def removeObject (d : BpyObjects) (name : String) (obj : ℕ) : BpyObjects :=
  { objects := d.objects.erase (name, obj) }

/-- compas_blender.utilities.objects.delete_object_by_name: fetch the
object via get_object_by_name (propagating its KeyError), then delete it
with delete_object. -/
def delete_object_by_name (d : BpyObjects) (name : String) :
    Except PyErr BpyObjects := do
  let obj ← get_object_by_name d name
  pure (removeObject d name obj)

end compas_blender

namespace compas_ghpython

/-- A COMPAS mesh as read by the ghpython MeshArtist: a name, vertex, face
and edge lists, and the coordinate accessors the artist calls. -/
structure Mesh where
  name : String
  vertices : List ℕ
  faces : List ℕ
  edges : List (ℕ × ℕ)
  vertex_coordinates : ℕ → Q3
  face_coordinates : ℕ → List Q3
  face_center : ℕ → Q3
  edge_coordinates : ℕ → ℕ → Q3 × Q3
  edge_midpoint : ℕ → ℕ → Q3

/-- A point descriptor forwarded to compas_ghpython.draw_points. -/
structure GPointDesc where
  pos : Q3
  name : String
  color : SVal
deriving DecidableEq

/-- A face descriptor forwarded to compas_ghpython.draw_faces. -/
structure GFaceDesc where
  points : List Q3
  name : String
  color : SVal
deriving DecidableEq

/-- A line descriptor forwarded to compas_ghpython.draw_lines. -/
structure GLineDesc where
  start : Q3
  end_ : Q3
  color : SVal
  name : String
deriving DecidableEq

/-- A label descriptor forwarded to compas_ghpython.draw_labels. -/
structure GLabelDesc where
  pos : Q3
  name : String
  color : SVal
  text : String
deriving DecidableEq

/-- A Rhino.Geometry.Mesh, abstracted to the vertex coordinates it was
built from; Mesh.Append is concatenation. -/
abbrev GhMesh := List Q3

/-- Modelled from the spec: compas_ghpython.draw_points is code of this
repository that is not under src/.  Per the spec it creates one host
point geometry (Point3d) per descriptor, in order. -/
def gh_draw_points (points : List GPointDesc) : List Q3 :=
  points.map (fun p => p.pos)

/-- Modelled from the spec: compas_ghpython.draw_faces is code of this
repository that is not under src/.  Per the spec it creates one host mesh
geometry per face descriptor, in order. -/
def gh_draw_faces (faces : List GFaceDesc) : List GhMesh :=
  faces.map (fun f => f.points)

/-- Modelled from the spec: compas_ghpython.draw_lines is code of this
repository that is not under src/.  Per the spec it creates one host line
geometry per descriptor, in order. -/
def gh_draw_lines (lines : List GLineDesc) : List (Q3 × Q3) :=
  lines.map (fun l => (l.start, l.end_))

/-- Modelled from the spec: compas_ghpython.draw_labels is code of this
repository that is not under src/.  Per the spec it creates one host
TextDot (position and text) per descriptor, in order. -/
def gh_draw_labels (labels : List GLabelDesc) : List (Q3 × String) :=
  labels.map (fun l => (l.pos, l.text))

/-- The text argument of a label-drawing method: None, a dict of key-text
pairs, or a value of any other type. -/
inductive TextArg (κ : Type) where
  | pynone
  | dict (d : List (κ × String))
  | invalid

/-- The ghpython MeshArtist state: the mesh and the settings dict. -/
structure MeshArtist where
  mesh : Mesh
  settings : SettingsDict

/-- The default settings dict built in MeshArtist.__init__. -/
def MeshArtist.default_settings : SettingsDict :=
  [("color.vertices", .rgb (255, 255, 255)),
   ("color.edges", .rgb (0, 0, 0)),
   ("color.faces", .rgb (210, 210, 210)),
   ("show.vertices", .bool true),
   ("show.edges", .bool true),
   ("show.faces", .bool true),
   ("show.vertexlabels", .bool false),
   ("show.facelabels", .bool false),
   ("show.edgelabels", .bool false),
   ("join_faces", .bool true)]

/-- MeshArtist.__init__(mesh): store the mesh and the default settings
(this artist takes no settings parameter). -/
def MeshArtist.init (mesh : Mesh) : MeshArtist :=
  { mesh := mesh, settings := MeshArtist.default_settings }

/-- MeshArtist.draw_vertices(keys=None, color=None): select the given
vertices (all vertices when the argument is None or empty), resolve
per-vertex colors with default settings of key color.vertices, build one
point descriptor per vertex and forward them to the host draw_points. -/
def MeshArtist.draw_vertices (a : MeshArtist) (keys : Option (List ℕ))
    (color : ColorSpec ℕ) : Except PyErr (List Q3) :=
  let vertices := pyOr keys a.mesh.vertices
  match a.settings.lookup ("color.vertices") with
  | none => .error .keyError
  | some dflt =>
    let colordict := color_to_colordict color vertices dflt
    let points := vertices.foldl (fun acc vertex => acc ++
      [({ pos := a.mesh.vertex_coordinates vertex
          name := a.mesh.name ++ ".vertex." ++ toString vertex
          color := colordict vertex } : GPointDesc)]) []
    .ok (gh_draw_points points)

/-- MeshArtist.draw_faces(keys=None, color=None, join_faces=False): select
the given faces (all faces when the argument is None or empty), resolve
per-face colors with default settings of key color.faces, build one face
descriptor per face, forward them to the host draw_faces, and when
join_faces is truthy return the single mesh obtained by appending all of
them to a fresh Rhino mesh. -/
def MeshArtist.draw_faces (a : MeshArtist) (keys : Option (List ℕ))
    (color : ColorSpec ℕ) (join_faces : Bool) : Except PyErr (List GhMesh) :=
  let keys := pyOr keys a.mesh.faces
  match a.settings.lookup ("color.faces") with
  | none => .error .keyError
  | some dflt =>
    let colordict := color_to_colordict color keys dflt
    let faces := keys.foldl (fun acc fkey => acc ++
      [({ points := a.mesh.face_coordinates fkey
          name := a.mesh.name ++ ".face." ++ toString fkey
          color := colordict fkey } : GFaceDesc)]) []
    let meshes := gh_draw_faces faces
    if !join_faces then .ok meshes
    else .ok [meshes.foldl (fun joined m => joined ++ m) []]

/-- MeshArtist.draw_edges(keys=None, color=None): select the given edges
(all edges when the argument is None or empty), resolve per-edge colors
with default settings of key color.edges, build one line descriptor per
edge and forward them to the host draw_lines. -/
def MeshArtist.draw_edges (a : MeshArtist) (keys : Option (List (ℕ × ℕ)))
    (color : ColorSpec (ℕ × ℕ)) : Except PyErr (List (Q3 × Q3)) :=
  let edges := pyOr keys a.mesh.edges
  match a.settings.lookup ("color.edges") with
  | none => .error .keyError
  | some dflt =>
    let colordict := color_to_colordict color edges dflt
    let lines := edges.foldl (fun acc edge => acc ++
      [({ start := (a.mesh.edge_coordinates edge.1 edge.2).1
          end_ := (a.mesh.edge_coordinates edge.1 edge.2).2
          color := colordict edge
          name := a.mesh.name ++ ".edge." ++ toString edge.1 ++ "-" ++
            toString edge.2 } : GLineDesc)]) []
    .ok (gh_draw_lines lines)

/-- The body of MeshArtist.draw_vertexlabels shared by the None and dict
branches, applied to the selected textdict. -/
def MeshArtist.vertexlabels_body (a : MeshArtist) (textdict : List (ℕ × String))
    (color : ColorSpec ℕ) : Except PyErr (List (Q3 × String)) :=
  match a.settings.lookup ("color.vertices") with
  | none => .error .keyError
  | some dflt =>
    let colordict := color_to_colordict color (textdict.map Prod.fst) dflt
    let labels := textdict.foldl (fun acc kt => acc ++
      [({ pos := a.mesh.vertex_coordinates kt.1
          name := a.mesh.name ++ ".vertexlabel." ++ toString kt.1
          color := colordict kt.1
          text := kt.2 } : GLabelDesc)]) []
    .ok (gh_draw_labels labels)

/-- MeshArtist.draw_vertexlabels(text=None, color=None): None labels every
vertex with its key, a dict is taken as is, anything else raises
NotImplementedError; per-key colors default to settings of key
color.vertices over the keys of the text dict.  The iteration uses each
pair's own text, equal to the dict entry since Python dict keys are
unique. -/
def MeshArtist.draw_vertexlabels (a : MeshArtist) (text : TextArg ℕ)
    (color : ColorSpec ℕ) : Except PyErr (List (Q3 × String)) :=
  match text with
  | .pynone => MeshArtist.vertexlabels_body a
      (a.mesh.vertices.map (fun key => (key, toString key))) color
  | .dict d => MeshArtist.vertexlabels_body a d color
  | .invalid => .error .notImplementedError

/-- The body of MeshArtist.draw_facelabels shared by the None and dict
branches, applied to the selected textdict. -/
def MeshArtist.facelabels_body (a : MeshArtist) (textdict : List (ℕ × String))
    (color : ColorSpec ℕ) : Except PyErr (List (Q3 × String)) :=
  match a.settings.lookup ("color.faces") with
  | none => .error .keyError
  | some dflt =>
    let colordict := color_to_colordict color (textdict.map Prod.fst) dflt
    let labels := textdict.foldl (fun acc kt => acc ++
      [({ pos := a.mesh.face_center kt.1
          name := a.mesh.name ++ ".facelabel." ++ toString kt.1
          color := colordict kt.1
          text := kt.2 } : GLabelDesc)]) []
    .ok (gh_draw_labels labels)

/-- MeshArtist.draw_facelabels(text=None, color=None): None labels every
face with its key, a dict is taken as is, anything else raises
NotImplementedError; per-key colors default to settings of key color.faces
over the keys of the text dict; labels sit at the face center. -/
def MeshArtist.draw_facelabels (a : MeshArtist) (text : TextArg ℕ)
    (color : ColorSpec ℕ) : Except PyErr (List (Q3 × String)) :=
  match text with
  | .pynone => MeshArtist.facelabels_body a
      (a.mesh.faces.map (fun key => (key, toString key))) color
  | .dict d => MeshArtist.facelabels_body a d color
  | .invalid => .error .notImplementedError

/-- The body of MeshArtist.draw_edgelabels shared by the None and dict
branches, applied to the selected textdict. -/
def MeshArtist.edgelabels_body (a : MeshArtist)
    (textdict : List ((ℕ × ℕ) × String)) (color : ColorSpec (ℕ × ℕ)) :
    Except PyErr (List (Q3 × String)) :=
  match a.settings.lookup ("color.edges") with
  | none => .error .keyError
  | some dflt =>
    let colordict := color_to_colordict color (textdict.map Prod.fst) dflt
    let labels := textdict.foldl (fun acc kt => acc ++
      [({ pos := a.mesh.edge_midpoint kt.1.1 kt.1.2
          name := a.mesh.name ++ ".edgelabel." ++ toString kt.1.1 ++ "-" ++
            toString kt.1.2
          color := colordict kt.1
          text := kt.2 } : GLabelDesc)]) []
    .ok (gh_draw_labels labels)

/-- MeshArtist.draw_edgelabels(text=None, color=None): None labels every
edge (u, v) with u-v, a dict is taken as is, anything else raises
NotImplementedError; per-key colors default to settings of key color.edges
over the keys of the text dict; labels sit at the edge midpoint. -/
def MeshArtist.draw_edgelabels (a : MeshArtist) (text : TextArg (ℕ × ℕ))
    (color : ColorSpec (ℕ × ℕ)) : Except PyErr (List (Q3 × String)) :=
  match text with
  | .pynone => MeshArtist.edgelabels_body a
      (a.mesh.edges.map (fun uv =>
        (uv, toString uv.1 ++ "-" ++ toString uv.2))) color
  | .dict d => MeshArtist.edgelabels_body a d color
  | .invalid => .error .notImplementedError

/-- The 6-element geometry list returned by MeshArtist.draw, with None for
the entries whose show flag is off. -/
structure MeshDrawing where
  g0 : Option (List Q3)
  g1 : Option (List (Q3 × String))
  g2 : Option (List GhMesh)
  g3 : Option (List (Q3 × String))
  g4 : Option (List (Q3 × Q3))
  g5 : Option (List (Q3 × String))
deriving DecidableEq

/-- Settings indexing self.settings[key]: a KeyError when the key is
missing. -/
def getSetting (d : SettingsDict) (key : String) : Except PyErr SVal :=
  match d.lookup key with
  | some v => .ok v
  | none => .error .keyError

/-- MeshArtist.draw(): when show.vertices is truthy the method evaluates
self.draw_nodes(), an attribute neither MeshArtist nor (modelled from the
spec, the class hierarchy sharing only settings boilerplate) BaseArtist
defines, so an AttributeError is raised; otherwise faces, face labels,
edges and edge labels are drawn according to their show flags and the
6-element geometry list is returned. -/
def MeshArtist.draw (a : MeshArtist) : Except PyErr MeshDrawing := do
  let sv ← getSetting a.settings ("show.vertices")
  if sv.truthy then
    throw (PyErr.attributeError ("draw_nodes"))
  let sf ← getSetting a.settings ("show.faces")
  let fpair ←
    if sf.truthy then do
      let jf ← getSetting a.settings ("join_faces")
      let m2 ← MeshArtist.draw_faces a none .pynone jf.truthy
      let sfl ← getSetting a.settings ("show.facelabels")
      if sfl.truthy then do
        let m3 ← MeshArtist.draw_facelabels a .pynone .pynone
        pure (some m2, some m3)
      else
        pure (some m2, (none : Option (List (Q3 × String))))
    else
      pure ((none : Option (List GhMesh)), (none : Option (List (Q3 × String))))
  let se ← getSetting a.settings ("show.edges")
  let epair ←
    if se.truthy then do
      let m4 ← MeshArtist.draw_edges a none .pynone
      let sel ← getSetting a.settings ("show.edgelabels")
      if sel.truthy then do
        let m5 ← MeshArtist.draw_edgelabels a .pynone .pynone
        pure (some m4, some m5)
      else
        pure (some m4, (none : Option (List (Q3 × String))))
    else
      pure ((none : Option (List (Q3 × Q3))), (none : Option (List (Q3 × String))))
  pure { g0 := none, g1 := none, g2 := fpair.1, g3 := fpair.2,
         g4 := epair.1, g5 := epair.2 }

end compas_ghpython

namespace compas_rhino

/-- A COMPAS frame: an origin point and three axis vectors. -/
structure Frame where
  point : Q3
  xaxis : Q3
  yaxis : Q3
  zaxis : Q3
deriving DecidableEq

/-- Componentwise vector addition on rational triples. -/
def vadd (u v : Q3) : Q3 := (u.1 + v.1, u.2.1 + v.2.1, u.2.2 + v.2.2)

/-- Vector.scaled: componentwise scaling of a rational triple. -/
def vscaled (v : Q3) (s : ℚ) : Q3 := (v.1 * s, v.2.1 * s, v.2.2 * s)

/-- A point descriptor forwarded to compas_rhino.draw_points
(fields pos and color of the Python dict literal). -/
structure RPointDesc where
  pos : Q3
  color : Color
deriving DecidableEq

/-- A line descriptor forwarded to compas_rhino.draw_lines
(fields start, end, color and arrow of the Python dict literal). -/
structure RLineDesc where
  start : Q3
  end_ : Q3
  color : Color
  arrow : String
deriving DecidableEq

/-- The Rhino document, abstracted: a fresh-GUID counter and a log of the
point and line objects created for each GUID. -/
structure RhinoState where
  next : ℕ
  points : List (ℕ × RPointDesc)
  lines : List (ℕ × RLineDesc)
deriving DecidableEq

/-- Modelled from the spec: compas_rhino.draw_points is code of this
repository that is not under src/.  Per the spec it creates one host point
object per descriptor, in order, on the given layer, and returns their
GUIDs. -/
def rhino_draw_points (st : RhinoState) (points : List RPointDesc)
    (layer : Option String) (clear : Bool) (redraw : Bool) :
    RhinoState × List ℕ :=
  let guids := (List.range points.length).map (fun i => st.next + i)
  ({ next := st.next + points.length
     points := st.points ++ guids.zip points
     lines := st.lines }, guids)

/-- Modelled from the spec: compas_rhino.draw_lines is code of this
repository that is not under src/.  Per the spec it creates one host line
object per descriptor, in order, on the given layer, and returns their
GUIDs. -/
def rhino_draw_lines (st : RhinoState) (lines : List RLineDesc)
    (layer : Option String) (clear : Bool) (redraw : Bool) :
    RhinoState × List ℕ :=
  let guids := (List.range lines.length).map (fun i => st.next + i)
  ({ next := st.next + lines.length
     points := st.points
     lines := st.lines ++ guids.zip lines }, guids)

/-- The FrameArtist state: the wrapped frame (self.primitive, set by the
PrimitiveArtist base class, which is not under src/ and is modelled from
the spec as settings boilerplate storing the primitive, layer and name),
the scale and the four colors set in FrameArtist.__init__, and the GUIDs
of the created objects. -/
structure FrameArtist where
  primitive : Frame
  layer : Option String
  name : Option String
  scale : ℚ
  color_origin : Color
  color_xaxis : Color
  color_yaxis : Color
  color_zaxis : Color
  guids : List ℕ
deriving DecidableEq

/-- FrameArtist.__init__(frame, layer=None, name=None, scale=1.0). -/
def FrameArtist.init (frame : Frame) (layer : Option String)
    (name : Option String) (scale : ℚ) : FrameArtist :=
  { primitive := frame
    layer := layer
    name := name
    scale := scale
    color_origin := (0, 0, 0)
    color_xaxis := (255, 0, 0)
    color_yaxis := (0, 255, 0)
    color_zaxis := (0, 0, 255)
    guids := [] }

/-- FrameArtist.draw: build one point descriptor at the frame origin and
three arrow-line descriptors from the origin to the origin plus each axis
scaled by self.scale, draw them with the host draw_points and draw_lines,
store the concatenated GUIDs in self.guids and return them. -/
def FrameArtist.draw (st : RhinoState) (a : FrameArtist) :
    (RhinoState × FrameArtist) × List ℕ :=
  let origin := a.primitive.point
  let x := vadd a.primitive.point (vscaled a.primitive.xaxis a.scale)
  let y := vadd a.primitive.point (vscaled a.primitive.yaxis a.scale)
  let z := vadd a.primitive.point (vscaled a.primitive.zaxis a.scale)
  let points := [({ pos := origin, color := a.color_origin } : RPointDesc)]
  let lines :=
    [({ start := origin, end_ := x, color := a.color_xaxis,
        arrow := "end" } : RLineDesc),
     ({ start := origin, end_ := y, color := a.color_yaxis,
        arrow := "end" } : RLineDesc),
     ({ start := origin, end_ := z, color := a.color_zaxis,
        arrow := "end" } : RLineDesc)]
  let rp := rhino_draw_points st points a.layer false false
  let rl := rhino_draw_lines rp.1 lines a.layer false false
  let guids := rp.2 ++ rl.2
  ((rl.1, { a with guids := guids }), guids)

/-- FrameArtist.draw_collection: an unconditional NotImplementedError
placeholder. -/
def FrameArtist.draw_collection (collection : List Frame)
    (names : Option (List String)) (colors : Option (List Color))
    (layer : Option String) (clear : Bool) (add_to_group : Bool)
    (group_name : Option String) : Except PyErr (List ℕ) :=
  .error .notImplementedError

end compas_rhino

/-- A small concrete network used to instantiate the theorems. -/
def demoNetwork : compas_blender.Network :=
  { name := "net"
    nodes := [0, 1]
    edges := [(0, 1)]
    node_coordinates := fun n => ((n : ℚ), 0, 0) }

/-- An empty concrete Blender scene. -/
def demoScene : compas_blender.Scene :=
  { next := 0, live := [], points := [], lines := [] }

/-- A small concrete mesh used to instantiate the theorems. -/
def demoMesh : compas_ghpython.Mesh :=
  { name := "mesh"
    vertices := [0, 1, 2]
    faces := [0]
    edges := [(0, 1)]
    vertex_coordinates := fun v => ((v : ℚ), 0, 0)
    face_coordinates := fun _ => [(0, 0, 0), (1, 0, 0), (0, 1, 0)]
    face_center := fun _ => ((1 : ℚ) / 3, (1 : ℚ) / 3, 0)
    edge_coordinates := fun u v => (((u : ℚ), 0, 0), ((v : ℚ), 0, 0))
    edge_midpoint := fun u v => (((u : ℚ) + (v : ℚ)) / 2, 0, 0) }

/-- The artist built on the demo network with default settings. -/
def demoArtist : compas_blender.NetworkArtist :=
  compas_blender.NetworkArtist.init demoNetwork none

/-- The handles a batch allocation starting at the given counter returns. -/
def handlesFrom (next n : ℕ) : List ℕ :=
  (List.range n).map (fun i => next + i)

/-- The point descriptors NetworkArtist.draw_nodes is specified to build:
one per node, in order, positioned at the node coordinates, named
name.node.key, colored by the resolved color dict. -/
def nodePointDescs (net : compas_blender.Network) (N : List ℕ)
    (cd : ℕ → SVal) : List compas_blender.PointDesc :=
  N.map (fun node =>
    { pos := net.node_coordinates node
      name := net.name ++ ".node." ++ toString node
      color := cd node
      radius := (5 : ℚ) / 100 })

/-- The line descriptors NetworkArtist.draw_edges is specified to build:
one per edge, in order, from the coordinates of the first endpoint to those
of the second, named name.edge.u-v, colored by the resolved color dict. -/
def edgeLineDescs (net : compas_blender.Network) (E : List (ℕ × ℕ))
    (cd : ℕ × ℕ → SVal) : List compas_blender.LineDesc :=
  E.map (fun edge =>
    { start := net.node_coordinates edge.1
      end_ := net.node_coordinates edge.2
      color := cd edge
      name := net.name ++ ".edge." ++ toString edge.1 ++ "-" ++
        toString edge.2
      width := (2 : ℚ) / 100 })

/-- A concrete scene with two live objects. -/
def demoSceneLive : compas_blender.Scene :=
  { next := 9, live := [3, 7], points := [], lines := [] }

/-- A concrete artist tracking object 3 as the drawing of node 0. -/
def demoArtistTracked : compas_blender.NetworkArtist :=
  { network := demoNetwork
    settings := compas_blender.NetworkArtist.default_settings
    object_node := [(3, 0)]
    object_edge := []
    object_path := [] }

/-- Helper: a left fold that appends one image per element builds the map. -/
theorem foldl_append_map (f : α → β) (l : List α) :
    ∀ acc : List β,
      l.foldl (fun acc x => acc ++ [f x]) acc = acc ++ l.map f := by
  induction l with
  | nil => intro acc; simp
  | cons x xs ih => intro acc; simp [ih]

/-- Helper: association-list lookup over an append takes the left list
first. -/
theorem lookup_append_eq [BEq α] (k : α) (l₁ l₂ : List (α × β)) :
    (l₁ ++ l₂).lookup k =
      match l₁.lookup k with
      | some v => some v
      | none => l₂.lookup k := by
  induction l₁ with
  | nil => simp [List.lookup]
  | cons p l ih =>
    cases p with
    | mk k' v' =>
      by_cases h : k == k'
      · simp [List.lookup, h]
      · simp only [List.cons_append, List.lookup, h]
        exact ih

/-- Helper: lookup misses exactly when the key is not among the keys. -/
theorem lookup_eq_none_of_not_mem_keys [BEq α] [LawfulBEq α] (k : α)
    (l : List (α × β)) (h : k ∉ l.map Prod.fst) : l.lookup k = none := by
  induction l with
  | nil => simp [List.lookup]
  | cons p rest ih =>
    simp only [List.map_cons, List.mem_cons, not_or] at h
    have hk : (k == p.1) = false := by
      cases hb : k == p.1
      · rfl
      · exact absurd (eq_of_beq hb) h.1
    cases p with
    | mk k' v' =>
      simp only [List.lookup, hk]
      exact ih h.2

/-- Helper: membership after erasing a batch of handles from a duplicate-free
list. -/
theorem mem_foldl_erase_iff (h : ℕ) :
    ∀ (hs l : List ℕ), l.Nodup →
      (h ∈ hs.foldl List.erase l ↔ h ∈ l ∧ h ∉ hs) := by
  intro hs
  induction hs with
  | nil => intro l _; simp
  | cons x xs ih =>
    intro l hnd
    simp only [List.foldl_cons]
    rw [ih (l.erase x) (hnd.erase x), List.Nodup.mem_erase_iff hnd,
      List.mem_cons]
    tauto

/-- Helper: when the stored names are duplicate-free, erasing the entry a
lookup found makes the name unresolvable. -/
theorem lookup_erase_of_nodup_keys :
    ∀ (l : List (String × ℕ)) (name : String) (obj : ℕ),
      (l.map Prod.fst).Nodup → l.lookup name = some obj →
      (l.erase (name, obj)).lookup name = none := by
  intro l
  induction l with
  | nil => intro name obj _ h; simp [List.lookup] at h
  | cons p rest ih =>
    intro name obj hnd hl
    cases p with
    | mk k v =>
      rw [List.erase_cons]
      by_cases hk : name = k
      · subst hk
        have hv : v = obj := by simpa [List.lookup] using hl
        subst hv
        rw [if_pos (by simp)]
        rw [List.map_cons] at hnd
        have hmem : name ∉ rest.map Prod.fst := (List.nodup_cons.mp hnd).1
        exact lookup_eq_none_of_not_mem_keys name rest hmem
      · have hkb : (name == k) = false := by
          simp [hk]
        rw [if_neg (by simp [Ne.symm hk])]
        have hl' : rest.lookup name = some obj := by
          simpa [List.lookup, hkb] using hl
        rw [List.map_cons] at hnd
        have hnd' : (rest.map Prod.fst).Nodup := (List.nodup_cons.mp hnd).2
        simp only [List.lookup, hkb]
        exact ih name obj hnd' hl'

/-- C10: for every artist, an empty list passed as the selection argument of
a per-component draw method (NetworkArtist.draw_nodes and draw_edges,
MeshArtist.draw_vertices, draw_faces and draw_edges) is treated identically
to passing None, so all components of the underlying data structure are
drawn, not zero of them. -/
theorem empty_selection_equals_none :
    (∀ st a c, compas_blender.NetworkArtist.draw_nodes st a (some []) c =
        compas_blender.NetworkArtist.draw_nodes st a none c)
    ∧ (∀ st a c, compas_blender.NetworkArtist.draw_edges st a (some []) c =
        compas_blender.NetworkArtist.draw_edges st a none c)
    ∧ (∀ a c, compas_ghpython.MeshArtist.draw_vertices a (some []) c =
        compas_ghpython.MeshArtist.draw_vertices a none c)
    ∧ (∀ a c j, compas_ghpython.MeshArtist.draw_faces a (some []) c j =
        compas_ghpython.MeshArtist.draw_faces a none c j)
    ∧ (∀ a c, compas_ghpython.MeshArtist.draw_edges a (some []) c =
        compas_ghpython.MeshArtist.draw_edges a none c) :=
  ⟨fun _ _ _ => rfl, fun _ _ _ => rfl, fun _ _ => rfl, fun _ _ _ => rfl,
   fun _ _ => rfl⟩

/-- C7: FrameArtist.draw creates exactly one point, at the frame's origin
with color color_origin, and exactly three arrow lines from the origin to
the origin plus the x, y and z axis scaled by the artist's scale, colored
color_xaxis, color_yaxis and color_zaxis; it returns the point's GUID
followed by the three line GUIDs and stores the same list in guids. -/
theorem frameartist_draw_spec (st : compas_rhino.RhinoState)
    (a : compas_rhino.FrameArtist) :
    (compas_rhino.FrameArtist.draw st a).2 =
      [st.next, st.next + 1, st.next + 2, st.next + 3]
    ∧ ((compas_rhino.FrameArtist.draw st a).1.2).guids =
      [st.next, st.next + 1, st.next + 2, st.next + 3]
    ∧ ((compas_rhino.FrameArtist.draw st a).1.1).points =
      st.points ++
        [(st.next, { pos := a.primitive.point, color := a.color_origin })]
    ∧ ((compas_rhino.FrameArtist.draw st a).1.1).lines =
      st.lines ++
        [(st.next + 1,
          { start := a.primitive.point
            end_ := compas_rhino.vadd a.primitive.point
              (compas_rhino.vscaled a.primitive.xaxis a.scale)
            color := a.color_xaxis, arrow := "end" }),
         (st.next + 2,
          { start := a.primitive.point
            end_ := compas_rhino.vadd a.primitive.point
              (compas_rhino.vscaled a.primitive.yaxis a.scale)
            color := a.color_yaxis, arrow := "end" }),
         (st.next + 3,
          { start := a.primitive.point
            end_ := compas_rhino.vadd a.primitive.point
              (compas_rhino.vscaled a.primitive.zaxis a.scale)
            color := a.color_zaxis, arrow := "end" })] := by
  have h1 : List.range 1 = [0] := rfl
  have h3 : List.range 3 = [0, 1, 2] := rfl
  refine ⟨?_, ?_, ?_, ?_⟩ <;>
    simp_arith [compas_rhino.FrameArtist.draw, compas_rhino.rhino_draw_points,
      compas_rhino.rhino_draw_lines, h1, h3]

/-- C6: get_object_by_name raises a host lookup error (KeyError) exactly
when no object with the given name exists; when one exists,
get_object_by_name returns it and delete_object_by_name deletes it (for
duplicate-free host names, the name afterwards no longer resolves). -/
theorem get_delete_object_by_name_spec (d : compas_blender.BpyObjects)
    (name : String) :
    (compas_blender.get_object_by_name d name = .error .keyError ↔
      d.objects.lookup name = none)
    ∧ (∀ obj, d.objects.lookup name = some obj →
        compas_blender.get_object_by_name d name = .ok obj
        ∧ compas_blender.delete_object_by_name d name =
            .ok { objects := d.objects.erase (name, obj) }
        ∧ ((d.objects.map Prod.fst).Nodup →
            (d.objects.erase (name, obj)).lookup name = none)) := by
  constructor
  · cases hl : d.objects.lookup name <;>
      simp [compas_blender.get_object_by_name, hl]
  · intro obj hl
    refine ⟨?_, ?_, fun hnd => lookup_erase_of_nodup_keys d.objects name obj hnd hl⟩
    · simp [compas_blender.get_object_by_name, hl]
    · simp [compas_blender.delete_object_by_name,
        compas_blender.get_object_by_name, hl, compas_blender.removeObject,
        Except.bind]

/-- C6 witness: on a concrete two-object scene, looking up the second name
succeeds and deleting it removes the entry, after which the name no longer
resolves. -/
theorem get_delete_object_by_name_spec_witness :
    compas_blender.get_object_by_name
        { objects := [("a", 7), ("b", 9)] } "b" = .ok 9
    ∧ compas_blender.delete_object_by_name
        { objects := [("a", 7), ("b", 9)] } "b" = .ok { objects := [("a", 7)] }
    ∧ (([("a", 7), ("b", 9)] : List (String × ℕ)).erase ("b", 9)).lookup "b"
      = none := by
  have h := (get_delete_object_by_name_spec
    { objects := [("a", 7), ("b", 9)] } "b").2 9 (by rfl)
  refine ⟨h.1, ?_, h.2.2 (by decide)⟩
  have h2 := h.2.1
  simpa using h2

/-- C5 counterexample: FrameArtist.draw_collection raises a
NotImplementedError on a perfectly valid input, so the NotImplementedError
signals of the repository are not limited to the three label methods with
an invalid text argument (and missing-name lookups): the claimed
enumeration of error sources is incomplete. -/
theorem draw_collection_not_implemented_counterexample :
    compas_rhino.FrameArtist.draw_collection [] none none none false false
      none = .error .notImplementedError := rfl

/-- C5 (amended): each of MeshArtist.draw_vertexlabels, draw_facelabels and
draw_edgelabels raises NotImplementedError if and only if its text argument
is neither None nor a dict, and with text None every vertex, face or edge
is labelled with its key; in addition FrameArtist.draw_collection raises an
unconditional NotImplementedError placeholder (and ghpython
MeshArtist.draw fails with an attribute-lookup error, separately claimed). -/
theorem label_not_implemented_spec :
    (∀ a c, compas_ghpython.MeshArtist.draw_vertexlabels a .invalid c =
        .error .notImplementedError)
    ∧ (∀ a t c, t ≠ compas_ghpython.TextArg.invalid →
        compas_ghpython.MeshArtist.draw_vertexlabels a t c ≠
          .error .notImplementedError)
    ∧ (∀ a c r,
        compas_ghpython.MeshArtist.draw_vertexlabels a .pynone c = .ok r →
        r.map Prod.snd = a.mesh.vertices.map toString)
    ∧ (∀ a c, compas_ghpython.MeshArtist.draw_facelabels a .invalid c =
        .error .notImplementedError)
    ∧ (∀ a t c, t ≠ compas_ghpython.TextArg.invalid →
        compas_ghpython.MeshArtist.draw_facelabels a t c ≠
          .error .notImplementedError)
    ∧ (∀ a c r,
        compas_ghpython.MeshArtist.draw_facelabels a .pynone c = .ok r →
        r.map Prod.snd = a.mesh.faces.map toString)
    ∧ (∀ a c, compas_ghpython.MeshArtist.draw_edgelabels a .invalid c =
        .error .notImplementedError)
    ∧ (∀ a t c, t ≠ compas_ghpython.TextArg.invalid →
        compas_ghpython.MeshArtist.draw_edgelabels a t c ≠
          .error .notImplementedError)
    ∧ (∀ a c r,
        compas_ghpython.MeshArtist.draw_edgelabels a .pynone c = .ok r →
        r.map Prod.snd =
          a.mesh.edges.map (fun uv => toString uv.1 ++ "-" ++ toString uv.2))
    ∧ (∀ col names colors layer clear atg gname,
        compas_rhino.FrameArtist.draw_collection col names colors layer clear
          atg gname = .error .notImplementedError) := by
  refine ⟨fun _ _ => rfl, ?_, ?_, fun _ _ => rfl, ?_, ?_, fun _ _ => rfl,
    ?_, ?_, fun _ _ _ _ _ _ _ => rfl⟩
  · intro a t c h
    cases t with
    | invalid => exact absurd rfl h
    | pynone =>
      cases hl : a.settings.lookup ("color.vertices") <;>
        simp [compas_ghpython.MeshArtist.draw_vertexlabels,
          compas_ghpython.MeshArtist.vertexlabels_body, hl]
    | dict d =>
      cases hl : a.settings.lookup ("color.vertices") <;>
        simp [compas_ghpython.MeshArtist.draw_vertexlabels,
          compas_ghpython.MeshArtist.vertexlabels_body, hl]
  · intro a c r h
    cases hl : a.settings.lookup ("color.vertices") <;>
      simp [compas_ghpython.MeshArtist.draw_vertexlabels,
        compas_ghpython.MeshArtist.vertexlabels_body, hl,
        compas_ghpython.gh_draw_labels, foldl_append_map, List.map_map] at h
    simp [← h, List.map_map, Function.comp]
  · intro a t c h
    cases t with
    | invalid => exact absurd rfl h
    | pynone =>
      cases hl : a.settings.lookup ("color.faces") <;>
        simp [compas_ghpython.MeshArtist.draw_facelabels,
          compas_ghpython.MeshArtist.facelabels_body, hl]
    | dict d =>
      cases hl : a.settings.lookup ("color.faces") <;>
        simp [compas_ghpython.MeshArtist.draw_facelabels,
          compas_ghpython.MeshArtist.facelabels_body, hl]
  · intro a c r h
    cases hl : a.settings.lookup ("color.faces") <;>
      simp [compas_ghpython.MeshArtist.draw_facelabels,
        compas_ghpython.MeshArtist.facelabels_body, hl,
        compas_ghpython.gh_draw_labels, foldl_append_map, List.map_map] at h
    simp [← h, List.map_map, Function.comp]
  · intro a t c h
    cases t with
    | invalid => exact absurd rfl h
    | pynone =>
      cases hl : a.settings.lookup ("color.edges") <;>
        simp [compas_ghpython.MeshArtist.draw_edgelabels,
          compas_ghpython.MeshArtist.edgelabels_body, hl]
    | dict d =>
      cases hl : a.settings.lookup ("color.edges") <;>
        simp [compas_ghpython.MeshArtist.draw_edgelabels,
          compas_ghpython.MeshArtist.edgelabels_body, hl]
  · intro a c r h
    cases hl : a.settings.lookup ("color.edges") <;>
      simp [compas_ghpython.MeshArtist.draw_edgelabels,
        compas_ghpython.MeshArtist.edgelabels_body, hl,
        compas_ghpython.gh_draw_labels, foldl_append_map, List.map_map] at h
    simp [← h, List.map_map, Function.comp]

/-- C5 witness: on the concrete demo mesh with text None, draw_vertexlabels
does not raise NotImplementedError. -/
theorem label_not_implemented_spec_witness :
    compas_ghpython.MeshArtist.draw_vertexlabels
        (compas_ghpython.MeshArtist.init demoMesh) .pynone .pynone ≠
      .error .notImplementedError :=
  label_not_implemented_spec.2.1 (compas_ghpython.MeshArtist.init demoMesh)
    .pynone .pynone (by simp)

/-- C8: ghpython MeshArtist.draw invokes self.draw_nodes, which the class
does not define (it defines draw_vertices), so with the default settings,
whose show.vertices is true, draw fails with an attribute-lookup error;
draw can return the 6-element geometry list only when the show.vertices
setting is false. -/
theorem meshartist_draw_missing_draw_nodes :
    (∀ m, compas_ghpython.MeshArtist.draw (compas_ghpython.MeshArtist.init m)
        = .error (.attributeError ("draw_nodes")))
    ∧ (∀ a v, a.settings.lookup ("show.vertices") = some v →
        v.truthy = true →
        compas_ghpython.MeshArtist.draw a =
          .error (.attributeError ("draw_nodes")))
    ∧ (∀ a g, compas_ghpython.MeshArtist.draw a = .ok g →
        ∃ v, a.settings.lookup ("show.vertices") = some v ∧
          v.truthy = false) := by
  refine ⟨fun m => rfl, ?_, ?_⟩
  · intro a v hl hv
    simp [compas_ghpython.MeshArtist.draw, compas_ghpython.getSetting, hl, hv,
      Bind.bind, Except.bind, throw, throwThe, MonadExceptOf.throw,
      Functor.map, Except.map]
  · intro a g hg
    cases hl : a.settings.lookup ("show.vertices") with
    | none =>
      simp [compas_ghpython.MeshArtist.draw, compas_ghpython.getSetting, hl,
        Bind.bind, Except.bind] at hg
    | some v =>
      cases hv : v.truthy with
      | true =>
        simp [compas_ghpython.MeshArtist.draw, compas_ghpython.getSetting,
          hl, hv, Bind.bind, Except.bind, throw, throwThe,
          MonadExceptOf.throw, Functor.map, Except.map] at hg
      | false => exact ⟨v, rfl, hv⟩

/-- C8 witness: the concrete demo artist has show.vertices true by default
and its draw fails with the attribute-lookup error. -/
theorem meshartist_draw_missing_draw_nodes_witness :
    compas_ghpython.MeshArtist.draw
        (compas_ghpython.MeshArtist.init demoMesh) =
      .error (.attributeError ("draw_nodes")) :=
  meshartist_draw_missing_draw_nodes.2.1
    (compas_ghpython.MeshArtist.init demoMesh) (.bool true) rfl rfl

/-- Helper: delete_objects only erases the given handles from the live
list, leaving counter and logs unchanged. -/
theorem delete_objects_eq (st : compas_blender.Scene) (hs : List ℕ) :
    compas_blender.delete_objects st hs =
      { st with live := hs.foldl List.erase st.live } := by
  induction hs generalizing st with
  | nil => rfl
  | cons x xs ih =>
    show compas_blender.delete_objects (compas_blender.delete_object st x) xs
      = _
    rw [ih]
    rfl

/-- Helper: the full effect of NetworkArtist.clear. -/
theorem clear_eq (st : compas_blender.Scene)
    (a : compas_blender.NetworkArtist) :
    compas_blender.NetworkArtist.clear st a =
      ({ st with live := a.tracked.foldl List.erase st.live },
       { a with object_node := [], object_edge := [], object_path := [] }) := by
  show (compas_blender.delete_objects st a.tracked, _) = _
  rw [delete_objects_eq]

/-- Helper: the full effect of NetworkArtist.draw_nodes when the default
node color is present in the settings. -/
theorem draw_nodes_eq (st : compas_blender.Scene)
    (a : compas_blender.NetworkArtist) (sel : Option (List ℕ))
    (color : ColorSpec ℕ) (dflt : SVal)
    (hl : a.settings.lookup ("color.nodes") = some dflt) :
    compas_blender.NetworkArtist.draw_nodes st a sel color =
      ((({ next := st.next + (pyOr sel a.network.nodes).length
           live := st.live ++
             handlesFrom st.next (pyOr sel a.network.nodes).length
           points := st.points ++
             (handlesFrom st.next (pyOr sel a.network.nodes).length).zip
               (nodePointDescs a.network (pyOr sel a.network.nodes)
                 (color_to_colordict color (pyOr sel a.network.nodes) dflt))
           lines := st.lines } : compas_blender.Scene),
        { a with object_node :=
            ((handlesFrom st.next (pyOr sel a.network.nodes).length).zip
              (pyOr sel a.network.nodes)) }),
       .ok (handlesFrom st.next (pyOr sel a.network.nodes).length)) := by
  simp only [compas_blender.NetworkArtist.draw_nodes, hl,
    compas_blender.draw_points, foldl_append_map, List.nil_append,
    List.length_map, handlesFrom, nodePointDescs]

/-- Helper: NetworkArtist.draw_nodes with a missing default node color
raises a KeyError before mutating anything. -/
theorem draw_nodes_eq_none (st : compas_blender.Scene)
    (a : compas_blender.NetworkArtist) (sel : Option (List ℕ))
    (color : ColorSpec ℕ)
    (hl : a.settings.lookup ("color.nodes") = none) :
    compas_blender.NetworkArtist.draw_nodes st a sel color =
      ((st, a), .error .keyError) := by
  simp [compas_blender.NetworkArtist.draw_nodes, hl]

/-- Helper: the full effect of NetworkArtist.draw_edges when the default
edge color is present in the settings. -/
theorem draw_edges_eq (st : compas_blender.Scene)
    (a : compas_blender.NetworkArtist) (sel : Option (List (ℕ × ℕ)))
    (color : ColorSpec (ℕ × ℕ)) (dflt : SVal)
    (hl : a.settings.lookup ("color.edges") = some dflt) :
    compas_blender.NetworkArtist.draw_edges st a sel color =
      ((({ next := st.next + (pyOr sel a.network.edges).length
           live := st.live ++
             handlesFrom st.next (pyOr sel a.network.edges).length
           points := st.points
           lines := st.lines ++
             (handlesFrom st.next (pyOr sel a.network.edges).length).zip
               (edgeLineDescs a.network (pyOr sel a.network.edges)
                 (color_to_colordict color (pyOr sel a.network.edges) dflt))
         } : compas_blender.Scene),
        { a with object_edge :=
            ((handlesFrom st.next (pyOr sel a.network.edges).length).zip
              (pyOr sel a.network.edges)) }),
       .ok (handlesFrom st.next (pyOr sel a.network.edges).length)) := by
  simp only [compas_blender.NetworkArtist.draw_edges, hl,
    compas_blender.draw_lines, foldl_append_map, List.nil_append,
    List.length_map, handlesFrom, edgeLineDescs]

/-- Helper: NetworkArtist.draw_edges with a missing default edge color
raises a KeyError before mutating anything. -/
theorem draw_edges_eq_none (st : compas_blender.Scene)
    (a : compas_blender.NetworkArtist) (sel : Option (List (ℕ × ℕ)))
    (color : ColorSpec (ℕ × ℕ))
    (hl : a.settings.lookup ("color.edges") = none) :
    compas_blender.NetworkArtist.draw_edges st a sel color =
      ((st, a), .error .keyError) := by
  simp [compas_blender.NetworkArtist.draw_edges, hl]

/-- Helper: the falsy-argument normalisation of a settings dict is the
identity. -/
theorem ifEmpty_eq (s : SettingsDict) :
    (if s.isEmpty then ([] : SettingsDict) else s) = s := by
  cases s <;> simp

/-- Helper: length of a handle batch. -/
theorem handlesFrom_length (next n : ℕ) : (handlesFrom next n).length = n := by
  simp [handlesFrom]

/-- Helper: membership in a handle batch. -/
theorem mem_handlesFrom {h next n : ℕ} :
    h ∈ handlesFrom next n ↔ next ≤ h ∧ h < next + n := by
  simp only [handlesFrom, List.mem_map, List.mem_range]
  constructor
  · rintro ⟨i, hi, rfl⟩
    omega
  · rintro ⟨h1, h2⟩
    exact ⟨h - next, by omega, by omega⟩

/-- Helper: the full effect of NetworkArtist.draw(settings) on the happy
path, where the merged settings contain the two show flags and the two
default colors: clear, merge, then draw all nodes when show.nodes is truthy
and all edges when show.edges is truthy. -/
theorem draw_eq (st : compas_blender.Scene) (a : compas_blender.NetworkArtist)
    (s : SettingsDict) (vn ve cn ce : SVal)
    (hn : (dictUpdate a.settings s).lookup ("show.nodes") = some vn)
    (he : (dictUpdate a.settings s).lookup ("show.edges") = some ve)
    (hcn : (dictUpdate a.settings s).lookup ("color.nodes") = some cn)
    (hce : (dictUpdate a.settings s).lookup ("color.edges") = some ce) :
    compas_blender.NetworkArtist.draw st a (some s) =
      ((({ next := st.next + (if vn.truthy then a.network.nodes.length else 0)
             + (if ve.truthy then a.network.edges.length else 0)
           live := a.tracked.foldl List.erase st.live
             ++ (if vn.truthy then
                  handlesFrom st.next a.network.nodes.length else [])
             ++ (if ve.truthy then
                  handlesFrom
                    (st.next +
                      (if vn.truthy then a.network.nodes.length else 0))
                    a.network.edges.length else [])
           points := st.points ++
             ((if vn.truthy then
                handlesFrom st.next a.network.nodes.length else []).zip
               (nodePointDescs a.network a.network.nodes
                 (color_to_colordict .pynone a.network.nodes cn)))
           lines := st.lines ++
             ((if ve.truthy then
                handlesFrom
                  (st.next +
                    (if vn.truthy then a.network.nodes.length else 0))
                  a.network.edges.length else []).zip
               (edgeLineDescs a.network a.network.edges
                 (color_to_colordict .pynone a.network.edges ce)))
         } : compas_blender.Scene),
        ({ network := a.network
           settings := dictUpdate a.settings s
           object_node := ((if vn.truthy then
               handlesFrom st.next a.network.nodes.length else []).zip
             a.network.nodes)
           object_edge := ((if ve.truthy then
               handlesFrom
                 (st.next +
                   (if vn.truthy then a.network.nodes.length else 0))
                 a.network.edges.length else []).zip
             a.network.edges)
           object_path := [] } : compas_blender.NetworkArtist)),
       .ok ((((if vn.truthy then
             handlesFrom st.next a.network.nodes.length else []).zip
           a.network.nodes).map Prod.fst)
         ++ (((if ve.truthy then
             handlesFrom
               (st.next +
                 (if vn.truthy then a.network.nodes.length else 0))
               a.network.edges.length else []).zip
           a.network.edges).map Prod.fst))) := by
  simp only [dictUpdate] at hn he hcn hce
  cases hvn : vn.truthy <;> cases hve : ve.truthy
  case false.false =>
    simp only [compas_blender.NetworkArtist.draw, clear_eq, ifEmpty_eq,
      compas_blender.NetworkArtist.updateSettings, dictUpdate,
      compas_blender.NetworkArtist.tracked, hn, he, hvn, hve,
      Bool.false_eq_true, if_false, if_true, ite_true, ite_false]
    simp [List.append_assoc]
  case false.true =>
    simp only [compas_blender.NetworkArtist.draw, clear_eq, ifEmpty_eq,
      compas_blender.NetworkArtist.updateSettings, dictUpdate,
      compas_blender.NetworkArtist.tracked, hn, he, hvn, hve,
      Bool.false_eq_true, if_false, if_true, ite_true, ite_false]
    rw [draw_edges_eq _ _ _ _ ce hce]
    simp [pyOr, compas_blender.NetworkArtist.tracked, List.append_assoc]
  case true.false =>
    simp only [compas_blender.NetworkArtist.draw, clear_eq, ifEmpty_eq,
      compas_blender.NetworkArtist.updateSettings, dictUpdate,
      compas_blender.NetworkArtist.tracked, hn, he, hvn, hve,
      Bool.false_eq_true, if_false, if_true, ite_true, ite_false]
    rw [draw_nodes_eq _ _ _ _ cn hcn]
    simp [pyOr, compas_blender.NetworkArtist.tracked, List.append_assoc, he,
      hve, Bool.false_eq_true]
  case true.true =>
    simp only [compas_blender.NetworkArtist.draw, clear_eq, ifEmpty_eq,
      compas_blender.NetworkArtist.updateSettings, dictUpdate,
      compas_blender.NetworkArtist.tracked, hn, he, hvn, hve,
      Bool.false_eq_true, if_false, if_true, ite_true, ite_false]
    rw [draw_nodes_eq _ _ _ _ cn hcn]
    simp only [he, hve, if_true, ite_true, pyOr]
    rw [draw_edges_eq _ _ _ _ ce hce]
    simp [pyOr, compas_blender.NetworkArtist.tracked, List.append_assoc]

/-- Helper: facts about NetworkArtist.draw that hold on every control path,
KeyError aborts included: the settings are the merged dict, the network is
untouched, object_path is empty, and the scene is the cleared scene
extended by handles at or above the old counter which include every key the
artist tracks afterwards. -/
theorem draw_frame (st : compas_blender.Scene)
    (a : compas_blender.NetworkArtist) (sopt : Option SettingsDict) :
    (((compas_blender.NetworkArtist.draw st a sopt).1.2).settings =
      dictUpdate a.settings (sopt.getD []))
    ∧ (((compas_blender.NetworkArtist.draw st a sopt).1.2).network =
      a.network)
    ∧ (((compas_blender.NetworkArtist.draw st a sopt).1.2).object_path = [])
    ∧ ∃ hs : List ℕ,
        ((compas_blender.NetworkArtist.draw st a sopt).1.1).live =
          a.tracked.foldl List.erase st.live ++ hs
        ∧ (∀ h ∈ hs, st.next ≤ h)
        ∧ (∀ h ∈ ((compas_blender.NetworkArtist.draw st a sopt).1.2).tracked,
            h ∈ hs) := by
  suffices H : ∀ s : SettingsDict,
      (((compas_blender.NetworkArtist.draw st a (some s)).1.2).settings =
        dictUpdate a.settings s)
      ∧ (((compas_blender.NetworkArtist.draw st a (some s)).1.2).network =
        a.network)
      ∧ (((compas_blender.NetworkArtist.draw st a (some s)).1.2).object_path
        = [])
      ∧ ∃ hs : List ℕ,
          ((compas_blender.NetworkArtist.draw st a (some s)).1.1).live =
            a.tracked.foldl List.erase st.live ++ hs
          ∧ (∀ h ∈ hs, st.next ≤ h)
          ∧ (∀ h ∈ ((compas_blender.NetworkArtist.draw st a
                (some s)).1.2).tracked, h ∈ hs) by
    cases sopt with
    | none => exact H []
    | some s => exact H s
  intro s
  have hzN : ∀ k : ℕ,
      ((handlesFrom k a.network.nodes.length).zip a.network.nodes).map
        Prod.fst = handlesFrom k a.network.nodes.length :=
    fun k => List.map_fst_zip _ _ (by simp [handlesFrom_length])
  have hzE : ∀ k : ℕ,
      ((handlesFrom k a.network.edges.length).zip a.network.edges).map
        Prod.fst = handlesFrom k a.network.edges.length :=
    fun k => List.map_fst_zip _ _ (by simp [handlesFrom_length])
  cases hn : List.lookup ("show.nodes") (s ++ a.settings) with
  | none =>
    simp only [compas_blender.NetworkArtist.draw, clear_eq, ifEmpty_eq,
      compas_blender.NetworkArtist.updateSettings, dictUpdate, hn]
    refine ⟨by simp, by simp, by simp, [], by simp, by simp, ?_⟩
    simp [compas_blender.NetworkArtist.tracked]
  | some vn =>
    cases hvn : vn.truthy with
    | false =>
      simp only [compas_blender.NetworkArtist.draw, clear_eq, ifEmpty_eq,
        compas_blender.NetworkArtist.updateSettings, dictUpdate, hn, hvn,
        Bool.false_eq_true, if_false, ite_false]
      cases he : List.lookup ("show.edges") (s ++ a.settings) with
      | none =>
        simp only [he]
        refine ⟨by simp, by simp, by simp, [], by simp, by simp, ?_⟩
        simp [compas_blender.NetworkArtist.tracked]
      | some ve =>
        cases hve : ve.truthy with
        | false =>
          simp only [he, hve, Bool.false_eq_true, if_false, ite_false]
          refine ⟨by simp, by simp, by simp, [], by simp, by simp, ?_⟩
          simp [compas_blender.NetworkArtist.tracked]
        | true =>
          simp only [he, hve, if_true, ite_true]
          cases hce : List.lookup ("color.edges") (s ++ a.settings) with
          | none =>
            rw [draw_edges_eq_none _ _ _ _ hce]
            refine ⟨by simp, by simp, by simp, [], by simp, by simp, ?_⟩
            simp [compas_blender.NetworkArtist.tracked]
          | some ce =>
            rw [draw_edges_eq _ _ _ _ ce hce]
            simp only [pyOr]
            refine ⟨by simp, by simp, by simp,
              handlesFrom st.next a.network.edges.length, by simp, ?_, ?_⟩
            · intro h hh
              exact (mem_handlesFrom.mp hh).1
            · intro h hh
              simp only [compas_blender.NetworkArtist.tracked, hzN, hzE,
                List.map_nil, List.nil_append, List.append_nil,
                List.mem_append] at hh
              simpa using hh
    | true =>
      simp only [compas_blender.NetworkArtist.draw, clear_eq, ifEmpty_eq,
        compas_blender.NetworkArtist.updateSettings, dictUpdate, hn, hvn,
        if_true, ite_true]
      cases hcn : List.lookup ("color.nodes") (s ++ a.settings) with
      | none =>
        rw [draw_nodes_eq_none _ _ _ _ hcn]
        refine ⟨by simp, by simp, by simp, [], by simp, by simp, ?_⟩
        simp [compas_blender.NetworkArtist.tracked]
      | some cn =>
        rw [draw_nodes_eq _ _ _ _ cn hcn]
        simp only [pyOr]
        cases he : List.lookup ("show.edges") (s ++ a.settings) with
        | none =>
          simp only [he]
          refine ⟨by simp, by simp, by simp,
            handlesFrom st.next a.network.nodes.length, by simp, ?_, ?_⟩
          · intro h hh
            exact (mem_handlesFrom.mp hh).1
          · intro h hh
            simp only [compas_blender.NetworkArtist.tracked, hzN, hzE,
              List.map_nil, List.nil_append, List.append_nil,
              List.mem_append] at hh
            simpa using hh
        | some ve =>
          cases hve : ve.truthy with
          | false =>
            simp only [he, hve, Bool.false_eq_true, if_false, ite_false]
            refine ⟨by simp, by simp, by simp,
              handlesFrom st.next a.network.nodes.length, by simp, ?_, ?_⟩
            · intro h hh
              exact (mem_handlesFrom.mp hh).1
            · intro h hh
              simp only [compas_blender.NetworkArtist.tracked, hzN, hzE,
                List.map_nil, List.nil_append, List.append_nil,
                List.mem_append] at hh
              simpa using hh
          | true =>
            simp only [he, hve, if_true, ite_true]
            cases hce : List.lookup ("color.edges") (s ++ a.settings) with
            | none =>
              rw [draw_edges_eq_none _ _ _ _ hce]
              refine ⟨by simp, by simp, by simp,
                handlesFrom st.next a.network.nodes.length, by simp, ?_, ?_⟩
              · intro h hh
                exact (mem_handlesFrom.mp hh).1
              · intro h hh
                simp only [compas_blender.NetworkArtist.tracked, hzN, hzE,
                  List.map_nil, List.nil_append, List.append_nil,
                  List.mem_append] at hh
                simpa using hh
            | some ce =>
              rw [draw_edges_eq _ _ _ _ ce hce]
              simp only [pyOr]
              refine ⟨by simp, by simp, by simp,
                handlesFrom st.next a.network.nodes.length ++
                  handlesFrom (st.next + a.network.nodes.length)
                    a.network.edges.length,
                by simp [List.append_assoc], ?_, ?_⟩
              · intro h hh
                rcases List.mem_append.mp hh with hh | hh
                · exact (mem_handlesFrom.mp hh).1
                · have := (mem_handlesFrom.mp hh).1
                  omega
              · intro h hh
                simp only [compas_blender.NetworkArtist.tracked, hzN, hzE,
                  List.map_nil, List.nil_append, List.append_nil,
                  List.mem_append] at hh
                simp only [List.mem_append]
                tauto

/-- Helper: NetworkArtist.clear establishes the tracking invariant
unconditionally, because it empties the tracking dicts. -/
theorem clear_inv (st : compas_blender.Scene)
    (a : compas_blender.NetworkArtist) :
    compas_blender.SceneInv (compas_blender.NetworkArtist.clear st a) := by
  rw [clear_eq]
  intro h hh
  simp [compas_blender.NetworkArtist.tracked] at hh

/-- Helper: NetworkArtist.draw_nodes preserves the tracking invariant. -/
theorem draw_nodes_inv (st : compas_blender.Scene)
    (a : compas_blender.NetworkArtist) (sel : Option (List ℕ))
    (c : ColorSpec ℕ) (hInv : compas_blender.SceneInv (st, a)) :
    compas_blender.SceneInv
      ((compas_blender.NetworkArtist.draw_nodes st a sel c).1) := by
  cases hl : a.settings.lookup ("color.nodes") with
  | none =>
    rw [draw_nodes_eq_none _ _ _ _ hl]
    exact hInv
  | some dflt =>
    rw [draw_nodes_eq _ _ _ _ dflt hl]
    intro h hh
    have hz := List.map_fst_zip
      (handlesFrom st.next (pyOr sel a.network.nodes).length)
      (pyOr sel a.network.nodes) (by simp [handlesFrom_length])
    simp only [compas_blender.NetworkArtist.tracked, hz, List.mem_append]
      at hh
    simp only [List.mem_append]
    rcases hh with (hh | hh) | hh
    · exact Or.inr hh
    · refine Or.inl (hInv h ?_)
      simp only [compas_blender.NetworkArtist.tracked, List.mem_append]
      tauto
    · refine Or.inl (hInv h ?_)
      simp only [compas_blender.NetworkArtist.tracked, List.mem_append]
      tauto

/-- Helper: NetworkArtist.draw_edges preserves the tracking invariant. -/
theorem draw_edges_inv (st : compas_blender.Scene)
    (a : compas_blender.NetworkArtist) (sel : Option (List (ℕ × ℕ)))
    (c : ColorSpec (ℕ × ℕ)) (hInv : compas_blender.SceneInv (st, a)) :
    compas_blender.SceneInv
      ((compas_blender.NetworkArtist.draw_edges st a sel c).1) := by
  cases hl : a.settings.lookup ("color.edges") with
  | none =>
    rw [draw_edges_eq_none _ _ _ _ hl]
    exact hInv
  | some dflt =>
    rw [draw_edges_eq _ _ _ _ dflt hl]
    intro h hh
    have hz := List.map_fst_zip
      (handlesFrom st.next (pyOr sel a.network.edges).length)
      (pyOr sel a.network.edges) (by simp [handlesFrom_length])
    simp only [compas_blender.NetworkArtist.tracked, hz, List.mem_append]
      at hh
    simp only [List.mem_append]
    rcases hh with (hh | hh) | hh
    · refine Or.inl (hInv h ?_)
      simp only [compas_blender.NetworkArtist.tracked, List.mem_append]
      tauto
    · exact Or.inr hh
    · refine Or.inl (hInv h ?_)
      simp only [compas_blender.NetworkArtist.tracked, List.mem_append]
      tauto

/-- Helper: NetworkArtist.draw establishes the tracking invariant on every
control path. -/
theorem draw_inv (st : compas_blender.Scene)
    (a : compas_blender.NetworkArtist) (sopt : Option SettingsDict) :
    compas_blender.SceneInv
      ((compas_blender.NetworkArtist.draw st a sopt).1) := by
  obtain ⟨-, -, -, hs, hlive, -, hsub⟩ := draw_frame st a sopt
  intro h hh
  have : h ∈ hs := hsub h hh
  rw [hlive]
  exact List.mem_append.mpr (Or.inr this)

/-- Helper: every public operation preserves the tracking invariant. -/
theorem step_inv (p : compas_blender.Scene × compas_blender.NetworkArtist)
    (op : compas_blender.NetOp) (h : compas_blender.SceneInv p) :
    compas_blender.SceneInv (compas_blender.NetworkArtist.step p op) := by
  cases op with
  | draw s => exact draw_inv p.1 p.2 s
  | draw_nodes n c => exact draw_nodes_inv p.1 p.2 n c h
  | draw_edges e c => exact draw_edges_inv p.1 p.2 e c h
  | clear => exact clear_inv p.1 p.2

/-- C2: starting from a freshly initialised NetworkArtist, after any
sequence of its public operations (draw, draw_nodes, draw_edges, clear)
every key of the tracking dictionaries object_node, object_edge and
object_path is a scene object currently present in the host scene. -/
theorem networkartist_tracking_invariant
    (network : compas_blender.Network) (s0 : Option SettingsDict)
    (st : compas_blender.Scene) (ops : List compas_blender.NetOp) :
    compas_blender.SceneInv
      (compas_blender.NetworkArtist.run
        (st, compas_blender.NetworkArtist.init network s0) ops) := by
  have hrun : ∀ (l : List compas_blender.NetOp)
      (p : compas_blender.Scene × compas_blender.NetworkArtist),
      compas_blender.SceneInv p →
      compas_blender.SceneInv (compas_blender.NetworkArtist.run p l) := by
    intro l
    induction l with
    | nil => intro p h; exact h
    | cons op rest ih =>
      intro p h
      exact ih (compas_blender.NetworkArtist.step p op) (step_inv p op h)
  apply hrun
  intro h hh
  cases s0 <;>
    simp [compas_blender.NetworkArtist.tracked,
      compas_blender.NetworkArtist.init] at hh

/-- C1: NetworkArtist.draw_nodes selects the given nodes if non-empty and
all network nodes otherwise, builds one point descriptor per node, in
order, positioned at node_coordinates, named name.node.key, colored by the
default-with-overrides colordict lookup with default settings of key
color.nodes, forwards the list to the host draw_points, and stores the
returned handles zipped with their source nodes, in order, as
object_node. -/
theorem networkartist_draw_nodes_spec (st : compas_blender.Scene)
    (a : compas_blender.NetworkArtist) (sel : Option (List ℕ))
    (color : ColorSpec ℕ) (dflt : SVal)
    (hl : a.settings.lookup ("color.nodes") = some dflt) :
    compas_blender.NetworkArtist.draw_nodes st a sel color =
      ((({ next := st.next + (pyOr sel a.network.nodes).length
           live := st.live ++
             handlesFrom st.next (pyOr sel a.network.nodes).length
           points := st.points ++
             ((handlesFrom st.next (pyOr sel a.network.nodes).length).zip
               (nodePointDescs a.network (pyOr sel a.network.nodes)
                 (color_to_colordict color (pyOr sel a.network.nodes) dflt)))
           lines := st.lines } : compas_blender.Scene),
        { a with object_node :=
            ((handlesFrom st.next (pyOr sel a.network.nodes).length).zip
              (pyOr sel a.network.nodes)) }),
       .ok (handlesFrom st.next (pyOr sel a.network.nodes).length)) :=
  draw_nodes_eq st a sel color dflt hl

/-- C1 witness: on the demo artist, drawing all nodes returns the two fresh
handles 0 and 1. -/
theorem networkartist_draw_nodes_spec_witness :
    (compas_blender.NetworkArtist.draw_nodes demoScene demoArtist none
      .pynone).2 = .ok [0, 1] := by
  rw [networkartist_draw_nodes_spec demoScene demoArtist none .pynone
    (SVal.rgb (255, 255, 255)) rfl]
  rfl

/-- C3: draw(settings=s) merges s into the artist settings with s taking
priority, clears the previously drawn objects from the scene, and draws
all nodes if and only if the merged show.nodes is truthy and all edges if
and only if the merged show.edges is truthy (when the merged dict holds
the two show flags and the two default colors, and the scene is wellformed
with every live handle below the counter and every tracked handle live). -/
theorem networkartist_draw_spec (st : compas_blender.Scene)
    (a : compas_blender.NetworkArtist) (s : SettingsDict) (vn ve cn ce : SVal)
    (hn : (dictUpdate a.settings s).lookup ("show.nodes") = some vn)
    (he : (dictUpdate a.settings s).lookup ("show.edges") = some ve)
    (hcn : (dictUpdate a.settings s).lookup ("color.nodes") = some cn)
    (hce : (dictUpdate a.settings s).lookup ("color.edges") = some ce)
    (hnd : st.live.Nodup)
    (hb : ∀ h ∈ st.live, h < st.next)
    (htr : ∀ h ∈ a.tracked, h ∈ st.live) :
    (((compas_blender.NetworkArtist.draw st a (some s)).1.2).settings =
      dictUpdate a.settings s)
    ∧ (∀ k v, s.lookup k = some v →
        (((compas_blender.NetworkArtist.draw st a
          (some s)).1.2).settings).lookup k = some v)
    ∧ (vn.truthy = true →
        ((compas_blender.NetworkArtist.draw st a
          (some s)).1.2).object_node.map Prod.snd = a.network.nodes)
    ∧ (vn.truthy = false →
        ((compas_blender.NetworkArtist.draw st a
          (some s)).1.2).object_node = [])
    ∧ (ve.truthy = true →
        ((compas_blender.NetworkArtist.draw st a
          (some s)).1.2).object_edge.map Prod.snd = a.network.edges)
    ∧ (ve.truthy = false →
        ((compas_blender.NetworkArtist.draw st a
          (some s)).1.2).object_edge = [])
    ∧ (∀ h ∈ a.tracked,
        h ∉ ((compas_blender.NetworkArtist.draw st a (some s)).1.1).live) := by
  have hD := draw_eq st a s vn ve cn ce hn he hcn hce
  refine ⟨?_, ?_, ?_, ?_, ?_, ?_, ?_⟩
  · rw [hD]
  · intro k v hk
    rw [hD]
    show (dictUpdate a.settings s).lookup k = some v
    simp only [dictUpdate, lookup_append_eq, hk]
  · intro hv
    have hz := List.map_snd_zip
      (handlesFrom st.next a.network.nodes.length) a.network.nodes
      (by simp [handlesFrom_length])
    rw [hD]
    simp [hv, hz]
  · intro hv
    rw [hD]
    simp [hv]
  · intro hv
    have hz := List.map_snd_zip
      (handlesFrom (st.next + if vn.truthy then a.network.nodes.length
        else 0) a.network.edges.length) a.network.edges
      (by simp [handlesFrom_length])
    rw [hD]
    simp [hv, hz]
  · intro hv
    rw [hD]
    simp [hv]
  · intro h hh
    obtain ⟨-, -, -, hs, hlive, hlb, -⟩ := draw_frame st a (some s)
    rw [hlive]
    intro hmem
    rcases List.mem_append.mp hmem with hm | hm
    · rw [mem_foldl_erase_iff h a.tracked st.live hnd] at hm
      exact hm.2 hh
    · have h1 := hlb h hm
      have h2 := hb h (htr h hh)
      omega

/-- C3 witness: with show.nodes overridden to false on the demo artist, the
node tracking dict stays empty after draw. -/
theorem networkartist_draw_spec_witness :
    ((compas_blender.NetworkArtist.draw demoScene demoArtist
      (some [("show.nodes", SVal.bool false)])).1.2).object_node = [] :=
  (networkartist_draw_spec demoScene demoArtist
    [("show.nodes", SVal.bool false)] (SVal.bool false) (SVal.bool true)
    (SVal.rgb (255, 255, 255)) (SVal.rgb (0, 0, 0)) rfl rfl rfl rfl
    List.nodup_nil (by simp [demoScene])
    (by
      intro h hh
      simp [compas_blender.NetworkArtist.tracked, demoArtist,
        compas_blender.NetworkArtist.init] at hh)).2.2.2.1 rfl

/-- C4: clear deletes from the host scene exactly the objects tracked as
keys of object_node, object_edge and object_path (for a duplicate-free
scene), leaves all three tracking dicts empty, and on every draw the
tracking dicts are rebuilt fresh: afterwards object_path is empty and every
tracked key is a handle allocated during that draw (at or above the
counter draw started from). -/
theorem networkartist_clear_spec (st : compas_blender.Scene)
    (a : compas_blender.NetworkArtist) (hnd : st.live.Nodup) :
    ((compas_blender.NetworkArtist.clear st a).2.object_node = []
      ∧ (compas_blender.NetworkArtist.clear st a).2.object_edge = []
      ∧ (compas_blender.NetworkArtist.clear st a).2.object_path = [])
    ∧ (∀ h, h ∈ (compas_blender.NetworkArtist.clear st a).1.live ↔
        (h ∈ st.live ∧ h ∉ a.tracked))
    ∧ (∀ (sopt : Option SettingsDict) (st2 : compas_blender.Scene),
        ((compas_blender.NetworkArtist.draw st2 a sopt).1.2).object_path = []
        ∧ ∀ h ∈ ((compas_blender.NetworkArtist.draw st2 a sopt).1.2).tracked,
            st2.next ≤ h) := by
  refine ⟨⟨?_, ?_, ?_⟩, ?_, ?_⟩
  · rw [clear_eq]
  · rw [clear_eq]
  · rw [clear_eq]
  · intro h
    rw [clear_eq]
    exact mem_foldl_erase_iff h a.tracked st.live hnd
  · intro sopt st2
    obtain ⟨-, -, hpath, hs, -, hlb, hsub⟩ := draw_frame st2 a sopt
    exact ⟨hpath, fun h hh => hlb h (hsub h hh)⟩

/-- C4 witness: clearing the artist that tracks object 3 removes it from
the scene that contains objects 3 and 7, and empties the tracking dict. -/
theorem networkartist_clear_spec_witness :
    (3 ∈ (compas_blender.NetworkArtist.clear demoSceneLive
        demoArtistTracked).1.live ↔
      (3 ∈ demoSceneLive.live ∧ 3 ∉ demoArtistTracked.tracked)) :=
  (networkartist_clear_spec demoSceneLive demoArtistTracked
    (by decide)).2.1 3

/-- C9: the settings dict passed to draw is merged permanently into the
artist settings: afterwards every key of s resolves to its value in s, the
override survives a later draw whose settings do not mention the key, and
the merge step itself changes no artist state other than the settings
dict. -/
theorem networkartist_draw_settings_persist (st st2 : compas_blender.Scene)
    (a : compas_blender.NetworkArtist) (s s2 : SettingsDict) (k : String)
    (v : SVal) (hk : s.lookup k = some v) :
    (((compas_blender.NetworkArtist.draw st a
      (some s)).1.2).settings.lookup k = some v)
    ∧ (s2.lookup k = none →
        (((compas_blender.NetworkArtist.draw st2
          ((compas_blender.NetworkArtist.draw st a (some s)).1.2)
          (some s2)).1.2).settings.lookup k = some v))
    ∧ (∀ (b : compas_blender.NetworkArtist) (t : SettingsDict),
        (compas_blender.NetworkArtist.updateSettings b t).network = b.network
        ∧ (compas_blender.NetworkArtist.updateSettings b t).object_node =
          b.object_node
        ∧ (compas_blender.NetworkArtist.updateSettings b t).object_edge =
          b.object_edge
        ∧ (compas_blender.NetworkArtist.updateSettings b t).object_path =
          b.object_path
        ∧ (compas_blender.NetworkArtist.updateSettings b t).settings =
          dictUpdate b.settings t) := by
  have hA := (draw_frame st a (some s)).1
  refine ⟨?_, ?_, fun b t => ⟨rfl, rfl, rfl, rfl, rfl⟩⟩
  · rw [hA]
    simp only [Option.getD, dictUpdate, lookup_append_eq, hk]
  · intro h2
    have hB := (draw_frame st2
      ((compas_blender.NetworkArtist.draw st a (some s)).1.2) (some s2)).1
    rw [hB, hA]
    simp only [Option.getD, dictUpdate, List.append_assoc, lookup_append_eq,
      h2, hk]

/-- C9 witness: the override show.nodes=false persists through a second
draw with empty settings. -/
theorem networkartist_draw_settings_persist_witness :
    ((compas_blender.NetworkArtist.draw demoScene
      ((compas_blender.NetworkArtist.draw demoScene demoArtist
        (some [("show.nodes", SVal.bool false)])).1.2)
      (some [])).1.2).settings.lookup ("show.nodes")
      = some (SVal.bool false) :=
  (networkartist_draw_settings_persist demoScene demoScene demoArtist
    [("show.nodes", SVal.bool false)] [] "show.nodes" (SVal.bool false)
    rfl).2.1 rfl

end CompasSpec
